import Mathlib

/-!
Verification of the ERA5/CAMS bulk-download tool (`download_era5.py`,
`ls2d_funcs.py`) against its specification.  The Python source is shallowly
embedded: dates and datetimes become explicit structures, the filesystem
becomes a list of existing paths, the remote CDS/ADS service becomes an
oracle describing the reply of one `update()` call, and the per-chunk
download step becomes a pure function returning the resulting filesystem
together with the observable events (submission, download, patching,
process exit).
-/

namespace Era5

/-- A calendar date, as produced by `datetime.datetime(year, month, day)`. -/
structure Date where
  year : Nat
  month : Nat
  day : Nat
deriving DecidableEq, Repr

/-- A date-time, as produced by `datetime.datetime(y, m, d, h, min)`. -/
structure DateTime where
  year : Nat
  month : Nat
  day : Nat
  hour : Nat
  minute : Nat
deriving DecidableEq, Repr

/-- Gregorian leap-year test. -/
def isLeap (y : Nat) : Bool :=
  (y % 4 == 0 && y % 100 != 0) || (y % 400 == 0)

/-- Number of days in a month of the Gregorian calendar. -/
def daysInMonth (y m : Nat) : Nat :=
  if m = 2 then (if isLeap y then 29 else 28)
  else if m = 4 ∨ m = 6 ∨ m = 9 ∨ m = 11 then 30
  else 31

/-- The calendar day after `d` (the effect of adding Python's
`datetime.timedelta(days=1)`). -/
def nextDay (d : Date) : Date :=
  if d.day < daysInMonth d.year d.month then ⟨d.year, d.month, d.day + 1⟩
  else if d.month < 12 then ⟨d.year, d.month + 1, 1⟩
  else ⟨d.year + 1, 1, 1⟩

/-- A well-formed Gregorian date (what Python's `datetime` constructor
accepts, restricted to positive years). -/
def ValidDate (d : Date) : Prop :=
  1 ≤ d.year ∧ 1 ≤ d.month ∧ d.month ≤ 12 ∧ 1 ≤ d.day ∧ d.day ≤ daysInMonth d.year d.month

instance (d : Date) : Decidable (ValidDate d) :=
  inferInstanceAs (Decidable (1 ≤ d.year ∧ 1 ≤ d.month ∧ d.month ≤ 12 ∧ 1 ≤ d.day ∧ d.day ≤ daysInMonth d.year d.month))

/-- `d + n` days, by iterating `nextDay` (Python `d + n*one_day`). -/
def addDays (d : Date) : Nat → Date
  | 0 => d
  | n + 1 => addDays (nextDay d) n

/-- Day number of a date (a rata-die style ordinal); used to embed Python's
`(last - first).days` on midnight datetimes. -/
def toOrdinal (d : Date) : Nat :=
  let y := if d.month ≤ 2 then d.year - 1 else d.year
  let m := if d.month ≤ 2 then d.month + 12 else d.month
  365 * y + y / 4 - y / 100 + y / 400 + (153 * (m - 3) + 2) / 5 + d.day - 1

/-- `chunk_dates`, accumulator form.  `chunks` are the finished chunks,
`chunk` the chunk currently being grown (both kept in order, as the Python
lists are). -/
def chunkGo (chunk_size : Nat) : List Date → List (List Date) → List Date → List (List Date)
  | [], chunks, chunk => if chunk.isEmpty then chunks else chunks ++ [chunk]
  | d :: rest, chunks, chunk =>
    match chunk.getLast? with
    | none => chunkGo chunk_size rest chunks [d]
    | some last =>
      if d.month ≠ last.month ∨ chunk_size ≤ chunk.length then
        chunkGo chunk_size rest (chunks ++ [chunk]) [d]
      else
        chunkGo chunk_size rest chunks (chunk ++ [d])

/-- `chunk_dates(dates, chunk_size)`: splits `dates` into lists of at most
`chunk_size`, starting a fresh chunk whenever the month changes or the
current chunk is full. -/
def chunk_dates (dates : List Date) (chunk_size : Nat) : List (List Date) :=
  chunkGo chunk_size dates [] []

/-- `lower_to_hour`: truncate a datetime to the full hour. -/
def lower_to_hour (t : DateTime) : DateTime :=
  ⟨t.year, t.month, t.day, t.hour, 0⟩

/-- The calendar day of a datetime (`datetime.datetime(t.year, t.month, t.day)`). -/
def dateOf (t : DateTime) : Date :=
  ⟨t.year, t.month, t.day⟩

/-- The consecutive daily sequence running from `a` up to the day whose
ordinal is `toOrdinal b` (empty when `b` is before `a`).  This embeds the
list comprehension `[first + i*one_day for i in range((last-first).days + 1)]`:
Python's `(last-first).days` on midnight datetimes is the ordinal difference,
and `range` of a non-positive number is empty, matching truncated
`Nat` subtraction. -/
def dailySeq (a b : Date) : List Date :=
  (List.range (toOrdinal b + 1 - toOrdinal a)).map (addDays a)

/-- `get_required_analysis(start, end, freq)`: first analysis day is the
start's day; the last is the end's day, pushed one day later when
`end.hour + end.minute/60 > 24 - freq` (stated over ℚ-free integers as
`60*hour + minute > 60*(24 - freq)`, which is exact since Python's float
comparison there is exact for these magnitudes). -/
def get_required_analysis (start e : DateTime) (freq : Nat) : List Date :=
  let first := dateOf start
  let last :=
    if 60 * e.hour + e.minute > 60 * (24 - freq) then nextDay (dateOf e)
    else dateOf e
  dailySeq first last

/-- Zero-padded two-digit rendering, `'{0:02d}'.format(n)`. -/
def pad2 (n : Nat) : String :=
  if n < 10 then "0" ++ toString n else toString n

/-- Zero-padded four-digit rendering, `'{0:04d}'.format(n)`. -/
def pad4 (n : Nat) : String :=
  if n < 10 then "000" ++ toString n
  else if n < 100 then "00" ++ toString n
  else if n < 1000 then "0" ++ toString n
  else toString n

/-- `era5_file_path(dates, path, case, ftype, format_ext)`: returns the
output directory and file path
`{path}/{case}/{yyyy}/{mm}/{dd_start}_{dd_end}/{ftype}{ext}`.
`dates[0]` and `dates[-1]` are embedded with a default for the empty list
(on which the Python would raise). -/
def era5_file_path (dates : List Date) (path case ftype format_ext : String) :
    String × String :=
  let s_date := dates.headD ⟨0, 0, 0⟩
  let e_date := dates.getLastD ⟨0, 0, 0⟩
  let era_dir :=
    path ++ "/" ++ case ++ "/" ++ pad4 s_date.year ++ "/" ++ pad2 s_date.month
      ++ "/" ++ pad2 s_date.day ++ "_" ++ pad2 e_date.day
  let era_file := era_dir ++ "/" ++ ftype ++ format_ext
  (era_dir, era_file)

/-! ## Filesystem model

The filesystem is the list of paths that currently exist (files and
directories alike; the tool never creates a file and a directory with the
same name).  `os.remove` on a missing path raises `FileNotFoundError`,
modelled by `Option`. -/

/-- Create a path if absent (`os.makedirs` / `open(p, "w")`). -/
def fsAdd (fs : List String) (p : String) : List String :=
  if p ∈ fs then fs else p :: fs

/-- What one `cds_request.update()` call reports. -/
inductive RemoteReply where
  /-- `update()` raised `requests.exceptions.HTTPError`: the remote no
  longer recognises the ticket (expired). -/
  | httpError
  /-- `update()` succeeded and `cds_request.reply['state']` is `state`. -/
  | ok (state : String)
deriving DecidableEq, Repr

/-- Remote behaviour of one task's ticket for one pass: the reply of
`update()` and whether `download(nc_file)` succeeds. -/
structure Oracle where
  reply : RemoteReply
  downloadOk : Bool
deriving DecidableEq, Repr

/-- The settings dictionary handed to `_download_era5_file`.  Optional
bounding-box entries model `k in settings` key-presence checks; coordinates
are rationals (Python floats, exactly representable for the arithmetic the
code performs). -/
structure Settings where
  chunk_dates : List Date
  era5_path : String
  case_name : String
  format_extension : String
  format : String
  write_log : Bool
  delete_expired_requests : Bool
  delete_rejected_requests : Bool
  patch_netcdf : Bool
  ftype : String
  lat_n : Option ℚ := none
  lat_s : Option ℚ := none
  lon_w : Option ℚ := none
  lon_e : Option ℚ := none
  central_lat : Option ℚ := none
  central_lon : Option ℚ := none
  area_size : Option ℚ := none
deriving DecidableEq, Repr

/-- Bounding-box resolution (lines 122–138): a complete explicit box wins,
else a complete centre-point triple, else a fatal `ConfigError`. -/
def resolveBBox (s : Settings) : Option (ℚ × ℚ × ℚ × ℚ) :=
  match s.lat_n, s.lat_s, s.lon_w, s.lon_e with
  | some n, some so, some w, some e => some (n, so, w, e)
  | _, _, _, _ =>
    match s.central_lat, s.central_lon, s.area_size with
    | some la, some lo, some sz => some (la + sz, la - sz, lo - sz, lo + sz)
    | _, _, _ => none

/-- `['{0:02d}:00'.format(i) for i in range(24)]`. -/
def analysis_times : List String :=
  (List.range 24).map (fun i => pad2 i ++ ":00")

/-- The hard-coded pressure levels of the `pressure_an` request. -/
def pressureLevels : List String :=
  ["500", "550", "600", "650", "700", "750", "775",
   "800", "825", "850", "875", "900", "925", "950", "975", "1000"]

/-- `d.strftime("%Y-%m-%d")`. -/
def dateString (d : Date) : String :=
  pad4 d.year ++ "-" ++ pad2 d.month ++ "-" ++ pad2 d.day

/-- The request payload submitted through `server.retrieve(dataset, request)`. -/
structure Request where
  dataset : String
  format : String
  time : List String
  area : List ℚ
  grid : List ℚ
  product_type : Option String := none
  pressure_level : Option (List String) := none
  year : Option String := none
  month : Option String := none
  day : Option (List Nat) := none
  date : Option (List String) := none
  varNames : List String := []
deriving DecidableEq, Repr

/-- Build the payload for the task's `ftype` (lines 209–289); `none` when
`ftype` is unrecognised, in which case the Python falls through to
`pickle.dump(cds_request, ...)` with `cds_request` unbound and raises
`NameError`. -/
def buildRequest (s : Settings) (lat_n lat_s lon_w lon_e : ℚ) : Option Request :=
  let base : Request :=
    { dataset := "", format := s.format, time := analysis_times,
      area := [lat_n, lon_w, lat_s, lon_e], grid := [1, 1] }
  if s.ftype = "pressure_an" then
    some { base with
      dataset := "reanalysis-era5-pressure-levels",
      product_type := some "reanalysis",
      pressure_level := some pressureLevels,
      year := some (pad4 (s.chunk_dates.headD ⟨0,0,0⟩).year),
      month := some (pad2 (s.chunk_dates.headD ⟨0,0,0⟩).month),
      day := some (s.chunk_dates.map Date.day),
      varNames := ["geopotential", "relative_humidity", "temperature"] }
  else if s.ftype = "surface_an" then
    some { base with
      dataset := "reanalysis-era5-single-levels",
      product_type := some "reanalysis",
      year := some (pad4 (s.chunk_dates.headD ⟨0,0,0⟩).year),
      month := some (pad2 (s.chunk_dates.headD ⟨0,0,0⟩).month),
      day := some (s.chunk_dates.map Date.day),
      varNames := ["land_sea_mask", "low_cloud_cover", "toa_incident_solar_radiation"] }
  else if s.ftype = "cams" then
    some { base with
      dataset := "cams-global-reanalysis-eac4",
      pressure_level := some ["1000"],
      date := some (s.chunk_dates.map dateString),
      varNames := ["sea_salt_aerosol_0.03-0.5um_mixing_ratio",
                   "sea_salt_aerosol_0.5-5um_mixing_ratio",
                   "sea_salt_aerosol_5-20um_mixing_ratio"] }
  else none

/-- The path stem of a task's artifacts, `nc_file[:-len(format_extension)]`:
the file is `era_dir ++ "/" ++ ftype ++ format_extension`, so stripping the
extension yields this stem. -/
def taskStem (s : Settings) : String :=
  (era5_file_path s.chunk_dates s.era5_path s.case_name s.ftype s.format_extension).1
    ++ "/" ++ s.ftype

/-- The task's resolved output file (`nc_file`). -/
def taskFile (s : Settings) : String :=
  (era5_file_path s.chunk_dates s.era5_path s.case_name s.ftype s.format_extension).2

/-- The task's persisted-handle path (`pickle_file`). -/
def taskPickle (s : Settings) : String := taskStem s ++ ".pickle"

/-- The task's stdout log path (`out_file`). -/
def taskOut (s : Settings) : String := taskStem s ++ ".out"

/-- The task's stderr log path (`err_file`). -/
def taskErr (s : Settings) : String := taskStem s ++ ".err"

/-- Lines 108–118: when `write_log` is set, the `.out` and `.err` log files
are opened for writing (created if absent) before anything else happens. -/
def fsLog (s : Settings) (fs : List String) : List String :=
  if s.write_log then fsAdd (fsAdd fs (taskOut s)) (taskErr s) else fs

/-- Abstract lifecycle state of a chunk after one invocation of the step
(§4.4 of the spec). -/
inductive LifeState where
  | noHandle | submitted | queued | accepted | running
  | completed | downloaded | rejected | expired | deleted
deriving DecidableEq, Repr

/-- How the invocation ended: normal return, `sys.exit` (via `error(...,
exit=True)`), or an uncaught Python exception. -/
inductive Outcome where
  | ok | fatalExit | raised
deriving DecidableEq, Repr

/-- Observable result of one `_download_era5_file` call. -/
structure StepResult where
  finished : Bool
  outcome : Outcome
  fs : List String
  lifeState : LifeState
  submitted : Bool
  request : Option Request := none
  downloaded : Bool := false
  patched : Bool := false
deriving DecidableEq, Repr

/-- The lifecycle state for an in-flight reply string. -/
def stateOfReply (st : String) : LifeState :=
  if st = "queued" then .queued
  else if st = "accepted" then .accepted
  else .running

/-- One invocation of `_download_era5_file(settings)` (lines 67–295).
Inputs beyond the settings: the current filesystem and the remote oracle
for this task's ticket.  The order of effects follows the source: log files
are opened first (when `write_log`), then the bounding box is validated
(fatal `error` on failure), then the pickle handle decides between the
refresh branch and the submit branch. -/
def downloadEra5File (s : Settings) (o : Oracle) (fs0 : List String) : StepResult :=
  let nc_file := taskFile s
  let out_file := taskOut s
  let err_file := taskErr s
  let fs := fsLog s fs0
  match resolveBBox s with
  | none =>
    -- `error('Domain boundaries are not correctly defined...', exit=True)`
    { finished := false, outcome := .fatalExit, fs := fs,
      lifeState := .noHandle, submitted := false }
  | some (lat_n, lat_s, lon_w, lon_e) =>
    let pickle_file := taskPickle s
    if pickle_file ∈ fs then
      match o.reply with
      | .httpError =>
        if s.delete_expired_requests then
          -- second `error(..., exit=False)`, then remove pickle, state 'deleted'
          { finished := false, outcome := .ok, fs := fs.erase pickle_file,
            lifeState := .deleted, submitted := false }
        else
          -- `error(..., exit=True)`: the whole process terminates here
          { finished := false, outcome := .fatalExit, fs := fs,
            lifeState := .expired, submitted := false }
      | .ok st =>
        if st = "completed" then
          if o.downloadOk then
            { finished := true, outcome := .ok,
              fs := (fsAdd fs nc_file).erase pickle_file,
              lifeState := .downloaded, submitted := false,
              downloaded := true,
              patched := s.patch_netcdf && s.format = "netcdf" }
          else
            -- `cds_request.download` raised; pickle survives, nothing written
            { finished := false, outcome := .raised, fs := fs,
              lifeState := .completed, submitted := false }
        else if st = "queued" ∨ st = "accepted" ∨ st = "running" then
          { finished := false, outcome := .ok, fs := fs,
            lifeState := stateOfReply st, submitted := false }
        else if st = "deleted" then
          { finished := false, outcome := .ok, fs := fs,
            lifeState := .deleted, submitted := false }
        else
          -- terminal failure branch (lines 189–202)
          if s.delete_rejected_requests then
            let fs1 := fs.erase pickle_file
            if err_file ∈ fs1 then
              let fs2 := fs1.erase err_file
              if out_file ∈ fs2 then
                { finished := false, outcome := .ok, fs := fs2.erase out_file,
                  lifeState := .deleted, submitted := false }
              else
                -- `os.remove(out_file)` raised FileNotFoundError
                { finished := false, outcome := .raised, fs := fs2,
                  lifeState := .rejected, submitted := false }
            else
              -- `os.remove(err_file)` raised FileNotFoundError
              { finished := false, outcome := .raised, fs := fs1,
                lifeState := .rejected, submitted := false }
          else
            { finished := false, outcome := .ok, fs := fs,
              lifeState := .rejected, submitted := false }
    else
      match buildRequest s lat_n lat_s lon_w lon_e with
      | none =>
        -- unknown ftype: `cds_request` never bound, NameError at pickle.dump
        { finished := false, outcome := .raised, fs := fs,
          lifeState := .noHandle, submitted := false }
      | some req =>
        { finished := false, outcome := .ok, fs := fsAdd fs pickle_file,
          lifeState := .submitted, submitted := true, request := some req }

/-- One iteration of the `prep_dl` loop body (lines 362–376): skip
blacklisted kinds; otherwise create the chunk directory if missing and
enqueue a per-task settings copy unless the output file already exists. -/
def prepStep (base : Settings) (blacklist : List String) (ftype : String)
    (acc : List String × List Settings) (dates : List Date) :
    List String × List Settings :=
  if ftype ∈ blacklist then acc
  else
    let fs := acc.1
    let q := acc.2
    let p := era5_file_path dates base.era5_path base.case_name ftype
      base.format_extension
    let fs := if p.1 ∈ fs then fs else fsAdd fs p.1
    if p.2 ∈ fs then (fs, q)
    else (fs, q ++ [{ base with chunk_dates := dates, ftype := ftype }])

/-- `prep_dl(chunk_size, ftype)` (lines 358–376): chunk the required dates
and run the loop body over every chunk.  Returns the filesystem (grown by
created directories) and the download queue. -/
def prep_dl (base : Settings) (an_dates : List Date) (blacklist : List String)
    (chunk_size : Nat) (ftype : String) (acc : List String × List Settings) :
    List String × List Settings :=
  (chunk_dates an_dates chunk_size).foldl (prepStep base blacklist ftype) acc

/-- The per-pass loop body over the download queue (lines 382–388): runs
each task's step on the threaded filesystem, folding `finished`/`any_dl`
exactly as the source does.  A `sys.exit` or uncaught exception inside a
step aborts the loop (`none`). -/
def runQueue (ora : Settings → Oracle) :
    List Settings → List String → Bool → Bool → Option (Bool × Bool × List String)
  | [], fs, fin, anyDl => some (fin, anyDl, fs)
  | req :: rest, fs, fin, anyDl =>
    let r := downloadEra5File req (ora req) fs
    match r.outcome with
    | .ok => runQueue ora rest r.fs (fin && r.finished) (anyDl || r.finished)
    | _ => none

/-- The step results actually produced while the pass runs the queue
(truncated at the first step that exits or raises). -/
def passResults (ora : Settings → Oracle) :
    List Settings → List String → List StepResult
  | [], _ => []
  | req :: rest, fs =>
    let r := downloadEra5File req (ora req) fs
    r :: (if r.outcome = .ok then passResults ora rest r.fs else [])

/-- The chunk-size configuration read from the settings dictionary in
`download_era5`. -/
structure ChunkSizes where
  sl : Nat
  pl : Nat
  cams : Nat
deriving DecidableEq, Repr

/-- `'.nc'` / `'.grib'` from `settings['format']`; any other format leaves
`format_extension` unset and the later lookups raise `KeyError`. -/
def formatExt (format : String) : Option String :=
  if format = "netcdf" then some ".nc"
  else if format = "grib" then some ".grib"
  else none

/-- Queue construction of `download_era5` (lines 338–380): required
analysis dates from the hour-rounded period, then `prep_dl` for
`surface_an`, `pressure_an` and `cams` in that order. -/
def buildQueue (s : Settings) (start_date end_date : DateTime)
    (sizes : ChunkSizes) (blacklist : List String) (fs : List String) :
    List String × List Settings :=
  let start := lower_to_hour start_date
  let e := lower_to_hour end_date
  let an_dates := get_required_analysis start e 1
  let a := prep_dl s an_dates blacklist sizes.sl "surface_an" (fs, [])
  let b := prep_dl s an_dates blacklist sizes.pl "pressure_an" a
  prep_dl s an_dates blacklist sizes.cams "cams" b

/-- `download_era5(settings, exit_when_waiting)` (lines 298–404): fix the
format extension and the trailing slash of the output path, fail fatally if
the output directory does not exist, build the queue, run it, and either
return `(finished, any_dl)` or `sys.exit(0)` (`none`) when unfinished with
`exit_when_waiting` set. -/
def download_era5 (s : Settings) (start_date end_date : DateTime)
    (sizes : ChunkSizes) (blacklist : List String) (ora : Settings → Oracle)
    (fs : List String) (exit_when_waiting : Bool) :
    Option (Bool × Bool × List String) :=
  match formatExt s.format with
  | none => none  -- KeyError on settings['format_extension']
  | some ext =>
    if s.era5_path ∈ fs then
      let path := if s.era5_path.endsWith "/" then s.era5_path else s.era5_path ++ "/"
      let base := { s with format_extension := ext, era5_path := path }
      let bq := buildQueue base start_date end_date sizes blacklist fs
      match runQueue ora bq.2 bq.1 true false with
      | none => none
      | some (fin, anyDl, fs') =>
        if fin = false ∧ exit_when_waiting then none  -- sys.exit(0)
        else some (fin, anyDl, fs')
    else none  -- error('Output directory does not exist', exit=True)

/-! ## Specification-side predicates and concrete fixtures -/

/-- All dates of a chunk lie in one calendar (year, month). -/
def SameCalendar (c : List Date) : Prop :=
  ∀ a ∈ c, ∀ b ∈ c, a.year = b.year ∧ a.month = b.month

/-- An ascending, gap-free daily date sequence: each entry is the calendar
day after its predecessor. -/
def DailyChain (dates : List Date) : Prop :=
  List.Chain' (fun a b => b = nextDay a) dates

instance (c : List Date) : Decidable (SameCalendar c) :=
  inferInstanceAs (Decidable (∀ a ∈ c, ∀ b ∈ c, a.year = b.year ∧ a.month = b.month))

instance (dates : List Date) : Decidable (DailyChain dates) :=
  inferInstanceAs (Decidable (List.Chain' (fun a b => b = nextDay a) dates))

/-- A concrete valid settings dictionary used in scenario theorems (the
explicit bounding box of the source's `__main__` block). -/
def baseSettings : Settings :=
  { chunk_dates := [⟨2010, 1, 1⟩, ⟨2010, 1, 2⟩],
    era5_path := "/data/", case_name := "test_case",
    format_extension := ".grib", format := "grib",
    write_log := true, delete_expired_requests := true,
    delete_rejected_requests := true, patch_netcdf := false,
    ftype := "surface_an",
    lat_n := some 60, lat_s := some (-60), lon_w := some (-180), lon_e := some 180 }

/-- The same task for a second, disjoint chunk. -/
def otherSettings : Settings :=
  { baseSettings with chunk_dates := [⟨2010, 1, 3⟩, ⟨2010, 1, 4⟩] }

/-- Path stem of `baseSettings`' chunk. -/
def stem1 : String := "/data//test_case/2010/01/01_02/surface_an"

/-- Path stem of `otherSettings`' chunk. -/
def stem2 : String := "/data//test_case/2010/01/03_04/surface_an"

/-! ## Lemmas about the date chunker -/

lemma chunkGo_join (n : Nat) :
    ∀ (dates : List Date) (chunks : List (List Date)) (chunk : List Date),
      (chunkGo n dates chunks chunk).flatten = chunks.flatten ++ chunk ++ dates := by
  intro dates
  induction dates with
  | nil =>
    intro chunks chunk
    by_cases h : chunk.isEmpty
    · have : chunk = [] := by simpa [List.isEmpty_iff] using h
      simp [chunkGo, h, this]
    · simp [chunkGo, h]
  | cons d rest ih =>
    intro chunks chunk
    cases hl : chunk.getLast? with
    | none =>
      have hc : chunk = [] := by simpa using hl
      simp [chunkGo, hl, ih, hc]
    | some last =>
      by_cases hcond : d.month ≠ last.month ∨ n ≤ chunk.length
      · simp [chunkGo, hl, hcond, ih, List.append_assoc]
      · simp [chunkGo, hl, hcond, ih, List.append_assoc]

lemma chunkGo_shape (n : Nat) (hn : 1 ≤ n) :
    ∀ (dates : List Date) (chunks : List (List Date)) (chunk : List Date),
      (∀ c ∈ chunks, c ≠ [] ∧ c.length ≤ n) → chunk.length ≤ n →
      ∀ c ∈ chunkGo n dates chunks chunk, c ≠ [] ∧ c.length ≤ n := by
  intro dates
  induction dates with
  | nil =>
    intro chunks chunk hchunks hlen c hc
    by_cases h : chunk.isEmpty
    · simp [chunkGo, h] at hc
      exact hchunks c hc
    · simp [chunkGo, h] at hc
      rcases hc with h1 | h1
      · exact hchunks c h1
      · subst h1
        exact ⟨by simpa [List.isEmpty_iff] using h, hlen⟩
  | cons d rest ih =>
    intro chunks chunk hchunks hlen c hc
    cases hl : chunk.getLast? with
    | none =>
      simp only [chunkGo, hl] at hc
      exact ih chunks [d] hchunks (by simpa using hn) c hc
    | some last =>
      by_cases hcond : d.month ≠ last.month ∨ n ≤ chunk.length
      · simp only [chunkGo, hl, if_pos hcond] at hc
        refine ih _ [d] ?_ (by simpa using hn) c hc
        intro c' hc'
        rcases List.mem_append.mp hc' with h1 | h1
        · exact hchunks c' h1
        · have hce : c' = chunk := by simpa using h1
          have hne : chunk ≠ [] := by
            intro h0; rw [h0] at hl; simp at hl
          rw [hce]
          exact ⟨hne, hlen⟩
      · simp only [chunkGo, hl, if_neg hcond] at hc
        push_neg at hcond
        exact ih chunks (chunk ++ [d]) hchunks (by simp; omega) c hc

/-- If the next day keeps the month, it also keeps the year. -/
lemma nextDay_month_eq_imp_year_eq (a : Date) (h : (nextDay a).month = a.month) :
    (nextDay a).year = a.year := by
  by_cases h1 : a.day < daysInMonth a.year a.month
  · simp [nextDay, h1]
  · by_cases h2 : a.month < 12
    · simp [nextDay, h1, h2] at h
    · simp only [nextDay, if_neg h1, if_neg h2] at h ⊢
      omega

lemma chunkGo_sameCal (n : Nat) :
    ∀ (dates : List Date) (chunks : List (List Date)) (chunk : List Date),
      List.Chain' (fun a b => b = nextDay a) (chunk ++ dates) →
      (∀ c ∈ chunks, SameCalendar c) → SameCalendar chunk →
      ∀ c ∈ chunkGo n dates chunks chunk, SameCalendar c := by
  intro dates
  induction dates with
  | nil =>
    intro chunks chunk _ hchunks hchunk c hc
    by_cases h : chunk.isEmpty
    · simp only [chunkGo, h, if_pos] at hc
      exact hchunks c hc
    · simp only [chunkGo, h, if_neg, Bool.false_eq_true, not_false_iff] at hc
      rcases List.mem_append.mp hc with h1 | h1
      · exact hchunks c h1
      · have : c = chunk := by simpa using h1
        subst this; exact hchunk
  | cons d rest ih =>
    intro chunks chunk hchain hchunks hchunk c hc
    cases hl : chunk.getLast? with
    | none =>
      have hc0 : chunk = [] := by simpa using hl
      simp only [chunkGo, hl] at hc
      refine ih chunks [d] ?_ hchunks ?_ c hc
      · subst hc0; simpa using hchain
      · intro a ha b hb
        simp at ha hb; subst ha; subst hb; exact ⟨rfl, rfl⟩
    | some last =>
      have hsplit := List.chain'_append.mp hchain
      by_cases hcond : d.month ≠ last.month ∨ n ≤ chunk.length
      · simp only [chunkGo, hl, if_pos hcond] at hc
        refine ih _ [d] ?_ ?_ ?_ c hc
        · exact hsplit.2.1
        · intro c' hc'
          rcases List.mem_append.mp hc' with h1 | h1
          · exact hchunks c' h1
          · have : c' = chunk := by simpa using h1
            subst this; exact hchunk
        · intro a ha b hb
          simp at ha hb; subst ha; subst hb; exact ⟨rfl, rfl⟩
      · simp only [chunkGo, hl, if_neg hcond] at hc
        push_neg at hcond
        have hstep : d = nextDay last := by
          have := hsplit.2.2 last (by simpa using hl) d (by simp)
          exact this
        have hmonth : d.month = last.month := hcond.1
        have hyear : d.year = last.year := by
          rw [hstep] at hmonth ⊢
          exact nextDay_month_eq_imp_year_eq last hmonth
        have hlast_mem : last ∈ chunk := by
          obtain ⟨h0, h1⟩ := List.mem_getLast?_eq_getLast (l := chunk) (x := last)
            (Option.mem_def.mpr hl)
          exact h1 ▸ List.getLast_mem h0
        refine ih chunks (chunk ++ [d]) ?_ hchunks ?_ c hc
        · simpa [List.append_assoc] using hchain
        · intro a ha b hb
          rcases List.mem_append.mp ha with ha' | ha' <;>
            rcases List.mem_append.mp hb with hb' | hb'
          · exact hchunk a ha' b hb'
          · have hb0 : b = d := by simpa using hb'
            subst hb0
            have := hchunk a ha' last hlast_mem
            exact ⟨by rw [this.1, hyear], by rw [this.2, hmonth]⟩
          · have ha0 : a = d := by simpa using ha'
            subst ha0
            have := hchunk last hlast_mem b hb'
            exact ⟨by rw [hyear, this.1], by rw [hmonth, this.2]⟩
          · have ha0 : a = d := by simpa using ha'
            have hb0 : b = d := by simpa using hb'
            subst ha0; subst hb0; exact ⟨rfl, rfl⟩

end Era5

namespace Era5

/-! ## Claim theorems: the date chunker -/

/-- C9: for every input list of dates (not necessarily sorted, gap-free or
daily) and every `chunk_size ≥ 1`, concatenating the output of
`chunk_dates` reproduces the input exactly, and every output chunk is
non-empty with length at most `chunk_size`. -/
theorem chunk_dates_flatten_and_shape :
    ∀ (dates : List Date) (chunk_size : Nat), 1 ≤ chunk_size →
      (chunk_dates dates chunk_size).flatten = dates ∧
      ∀ c ∈ chunk_dates dates chunk_size, c ≠ [] ∧ c.length ≤ chunk_size := by
  intro dates n hn
  constructor
  · simpa using chunkGo_join n dates [] []
  · exact chunkGo_shape n hn dates [] [] (by simp) (by simp)

/-- Witness for C9 at a concrete unsorted, gappy, repeating input. -/
theorem chunk_dates_flatten_and_shape_witness :
    (chunk_dates [⟨2010,5,1⟩, ⟨2010,1,7⟩, ⟨2010,5,1⟩] 2).flatten
      = [⟨2010,5,1⟩, ⟨2010,1,7⟩, ⟨2010,5,1⟩] ∧
    ∀ c ∈ chunk_dates [⟨2010,5,1⟩, ⟨2010,1,7⟩, ⟨2010,5,1⟩] 2,
      c ≠ [] ∧ c.length ≤ 2 :=
  chunk_dates_flatten_and_shape [⟨2010,5,1⟩, ⟨2010,1,7⟩, ⟨2010,5,1⟩] 2 (by decide)

/-- C1: on every ascending gap-free daily date sequence and every
`max_size ≥ 1`, `chunk_dates` yields chunks that are non-empty, of length
at most `max_size` and within a single calendar (year, month), whose
concatenation reproduces the input; and the Jan 30 – Feb 2 example with
`max_size = 8` splits exactly at the month boundary. -/
theorem chunk_dates_daily_correct :
    (∀ (dates : List Date) (max_size : Nat), 1 ≤ max_size → DailyChain dates →
      (chunk_dates dates max_size).flatten = dates ∧
      ∀ c ∈ chunk_dates dates max_size,
        c ≠ [] ∧ c.length ≤ max_size ∧ SameCalendar c) ∧
    chunk_dates [⟨2010,1,30⟩, ⟨2010,1,31⟩, ⟨2010,2,1⟩, ⟨2010,2,2⟩] 8
      = [[⟨2010,1,30⟩, ⟨2010,1,31⟩], [⟨2010,2,1⟩, ⟨2010,2,2⟩]] := by
  constructor
  · intro dates n hn hdaily
    refine ⟨by simpa using chunkGo_join n dates [] [], ?_⟩
    intro c hc
    have h1 := chunkGo_shape n hn dates [] [] (by simp) (by simp) c hc
    have h2 := chunkGo_sameCal n dates [] []
      (by simpa [DailyChain] using hdaily) (by simp)
      (by intro a ha; exact absurd ha (List.not_mem_nil a)) c hc
    exact ⟨h1.1, h1.2, h2⟩
  · decide

/-- Witness for C1: the general part applied to the Jan 30 – Feb 2 daily
sequence with `max_size = 8`. -/
theorem chunk_dates_daily_correct_witness :
    (1 ≤ 8 ∧ DailyChain [⟨2010,1,30⟩, ⟨2010,1,31⟩, ⟨2010,2,1⟩, ⟨2010,2,2⟩]) ∧
    ((chunk_dates [⟨2010,1,30⟩, ⟨2010,1,31⟩, ⟨2010,2,1⟩, ⟨2010,2,2⟩] 8).flatten
        = [⟨2010,1,30⟩, ⟨2010,1,31⟩, ⟨2010,2,1⟩, ⟨2010,2,2⟩] ∧
      ∀ c ∈ chunk_dates [⟨2010,1,30⟩, ⟨2010,1,31⟩, ⟨2010,2,1⟩, ⟨2010,2,2⟩] 8,
        c ≠ [] ∧ c.length ≤ 8 ∧ SameCalendar c) :=
  ⟨⟨by decide, by
      simp only [DailyChain, List.chain'_cons, List.chain'_singleton]
      exact ⟨by decide, by decide, by decide⟩⟩,
    chunk_dates_daily_correct.1 [⟨2010,1,30⟩, ⟨2010,1,31⟩, ⟨2010,2,1⟩, ⟨2010,2,2⟩] 8
      (by decide) (by
      simp only [DailyChain, List.chain'_cons, List.chain'_singleton]
      exact ⟨by decide, by decide, by decide⟩)⟩

end Era5

namespace Era5

/-! ## Lemmas about the date arithmetic -/

lemma isLeap_spec (y : Nat) :
    isLeap y = true ↔ ((y % 4 = 0 ∧ y % 100 ≠ 0) ∨ y % 400 = 0) := by
  simp [isLeap]

lemma toOrdinal_eq (y mo da : Nat) : toOrdinal ⟨y, mo, da⟩ =
    (if mo ≤ 2 then
      365 * (y-1) + (y-1)/4 - (y-1)/100 + (y-1)/400 + (153 * (mo+12-3) + 2)/5 + da - 1
     else
      365 * y + y/4 - y/100 + y/400 + (153 * (mo-3) + 2)/5 + da - 1) := by
  simp only [toOrdinal]
  split_ifs <;> rfl

lemma toOrdinal_nextDay_mid (y mo da : Nat) (h1 : 1 ≤ da) (hlt : da < daysInMonth y mo) :
    toOrdinal (nextDay ⟨y, mo, da⟩) = toOrdinal ⟨y, mo, da⟩ + 1 := by
  have hn : nextDay ⟨y, mo, da⟩ = ⟨y, mo, da + 1⟩ := by
    simp [nextDay, hlt]
  rw [hn, toOrdinal_eq, toOrdinal_eq]
  split_ifs with hc
  · generalize 365 * (y-1) + (y-1)/4 - (y-1)/100 + (y-1)/400 + (153 * (mo+12-3) + 2)/5 = A
    omega
  · generalize 365 * y + y/4 - y/100 + y/400 + (153 * (mo-3) + 2)/5 = A
    omega

set_option maxHeartbeats 1000000 in
lemma toOrdinal_nextDay (d : Date) (h : ValidDate d) :
    toOrdinal (nextDay d) = toOrdinal d + 1 := by
  obtain ⟨y, mo, da⟩ := d
  obtain ⟨hy, hm1, hm2, hd1, hd2⟩ := h
  simp only at hy hm1 hm2 hd1 hd2
  by_cases hlt : da < daysInMonth y mo
  · exact toOrdinal_nextDay_mid y mo da hd1 hlt
  · have hnext : nextDay ⟨y, mo, da⟩ =
        if mo < 12 then ⟨y, mo + 1, 1⟩ else ⟨y + 1, 1, 1⟩ := by
      simp [nextDay, hlt]
    have hda : da = daysInMonth y mo := le_antisymm hd2 (by omega)
    rcases Bool.eq_false_or_eq_true (isLeap y) with hb | hb
    · have harith : (y % 4 = 0 ∧ y % 100 ≠ 0) ∨ y % 400 = 0 := (isLeap_spec y).mp hb
      interval_cases mo <;>
        (simp only [daysInMonth, hb] at hda
         norm_num at hda hnext
         rw [hnext, toOrdinal_eq, toOrdinal_eq]
         norm_num
         omega)
    · have harith : ¬((y % 4 = 0 ∧ y % 100 ≠ 0) ∨ y % 400 = 0) := by
        intro hp
        have h2 := (isLeap_spec y).mpr hp
        rw [hb] at h2
        simp at h2
      interval_cases mo <;>
        (simp only [daysInMonth, hb] at hda
         norm_num at hda hnext
         rw [hnext, toOrdinal_eq, toOrdinal_eq]
         norm_num
         omega)

lemma one_le_daysInMonth (y m : Nat) : 1 ≤ daysInMonth y m := by
  unfold daysInMonth
  split_ifs <;> norm_num

lemma validDate_mk (y mo da : Nat) (h1 : 1 ≤ y) (h2 : 1 ≤ mo) (h3 : mo ≤ 12)
    (h4 : 1 ≤ da) (h5 : da ≤ daysInMonth y mo) : ValidDate ⟨y, mo, da⟩ :=
  ⟨h1, h2, h3, h4, h5⟩

lemma nextDay_valid (d : Date) (h : ValidDate d) : ValidDate (nextDay d) := by
  obtain ⟨y, mo, da⟩ := d
  obtain ⟨hy, hm1, hm2, hd1, hd2⟩ := h
  simp only at hy hm1 hm2 hd1 hd2
  by_cases h1 : da < daysInMonth y mo
  · have hn : nextDay ⟨y, mo, da⟩ = ⟨y, mo, da + 1⟩ := by simp [nextDay, h1]
    rw [hn]
    exact validDate_mk y mo (da + 1) hy hm1 hm2 (by omega) (by omega)
  · by_cases h2 : mo < 12
    · have hn : nextDay ⟨y, mo, da⟩ = ⟨y, mo + 1, 1⟩ := by simp [nextDay, h1, h2]
      rw [hn]
      exact validDate_mk y (mo + 1) 1 hy (by omega) (by omega) (le_refl 1)
        (one_le_daysInMonth y (mo + 1))
    · have hn : nextDay ⟨y, mo, da⟩ = ⟨y + 1, 1, 1⟩ := by simp [nextDay, h1, h2]
      rw [hn]
      exact validDate_mk (y + 1) 1 1 (by omega) (by norm_num) (by norm_num) (le_refl 1)
        (one_le_daysInMonth (y + 1) 1)

lemma addDays_succ (d : Date) (n : Nat) :
    addDays d (n + 1) = nextDay (addDays d n) := by
  induction n generalizing d with
  | zero => rfl
  | succ n ih =>
    show addDays (nextDay d) (n + 1) = nextDay (addDays d (n + 1))
    rw [ih (nextDay d)]
    rfl

lemma addDays_valid (d : Date) (h : ValidDate d) (n : Nat) :
    ValidDate (addDays d n) := by
  induction n with
  | zero => exact h
  | succ n ih => rw [addDays_succ]; exact nextDay_valid _ ih

lemma toOrdinal_addDays (d : Date) (h : ValidDate d) (n : Nat) :
    toOrdinal (addDays d n) = toOrdinal d + n := by
  induction n with
  | zero => rfl
  | succ n ih =>
    rw [addDays_succ, toOrdinal_nextDay _ (addDays_valid d h n), ih]
    omega

lemma dailySeq_to_addDays (a : Date) (ha : ValidDate a) (m : Nat) :
    dailySeq a (addDays a m) = (List.range (m + 1)).map (addDays a) := by
  unfold dailySeq
  rw [toOrdinal_addDays a ha m]
  have hlen : toOrdinal a + m + 1 - toOrdinal a = m + 1 := by omega
  rw [hlen]

lemma range_map_addDays_head (a : Date) (m : Nat) :
    ((List.range (m + 1)).map (addDays a)).head? = some a := by
  rw [List.range_succ_eq_map]
  rfl

lemma range_map_addDays_getLast (a : Date) (m : Nat) :
    ((List.range (m + 1)).map (addDays a)).getLast? = some (addDays a m) := by
  rw [List.range_succ, List.map_append]
  simp

lemma range_map_addDays_chain (a : Date) (m : Nat) :
    List.Chain' (fun p q => q = nextDay p) ((List.range (m + 1)).map (addDays a)) := by
  rw [List.chain'_map]
  rw [List.chain'_range_succ]
  intro i _
  rw [addDays_succ]

end Era5

namespace Era5

/-- C5: for every start/end pair (the end reachable from the start, both
valid), the required analysis dates are the consecutive daily sequence from
the start's calendar day through the end's calendar day — each entry the
calendar successor of the previous, starting at the start's day — extended
by exactly one extra day when the hour-rounded end time satisfies
`hour + minute/60 > 24 - freq` with `freq = 1` (stated in minutes as
`60*hour + minute > 60*(24-1)`); and the range 2010-01-01T00 to
2010-01-01T23 with chunk size 8 yields the single chunk `[2010-01-01]`. -/
theorem get_required_analysis_correct :
    (∀ (start e : DateTime) (m : Nat), ValidDate (dateOf start) →
      dateOf e = addDays (dateOf start) m →
      get_required_analysis start e 1 =
        (List.range ((if 60 * e.hour + e.minute > 60 * (24 - 1) then m + 1 else m) + 1)).map
          (addDays (dateOf start)) ∧
      (get_required_analysis start e 1).head? = some (dateOf start) ∧
      (get_required_analysis start e 1).getLast? =
        some (if 60 * e.hour + e.minute > 60 * (24 - 1) then nextDay (dateOf e) else dateOf e) ∧
      List.Chain' (fun p q => q = nextDay p) (get_required_analysis start e 1)) ∧
    get_required_analysis ⟨2010,1,1,0,0⟩ ⟨2010,1,1,23,0⟩ 1 = [⟨2010,1,1⟩] ∧
    chunk_dates (get_required_analysis ⟨2010,1,1,0,0⟩ ⟨2010,1,1,23,0⟩ 1) 8
      = [[⟨2010,1,1⟩]] := by
  refine ⟨?_, by decide, by decide⟩
  intro start e m hv heq
  have hdef : get_required_analysis start e 1 =
      dailySeq (dateOf start)
        (if 60 * e.hour + e.minute > 60 * (24 - 1) then nextDay (dateOf e) else dateOf e) :=
    rfl
  by_cases hc : 60 * e.hour + e.minute > 60 * (24 - 1)
  · rw [hdef]
    simp only [if_pos hc]
    rw [heq, ← addDays_succ, dailySeq_to_addDays _ hv]
    exact ⟨rfl, range_map_addDays_head _ _, range_map_addDays_getLast _ _,
      range_map_addDays_chain _ _⟩
  · rw [hdef]
    simp only [if_neg hc]
    rw [heq, dailySeq_to_addDays _ hv]
    exact ⟨rfl, range_map_addDays_head _ _, range_map_addDays_getLast _ _,
      range_map_addDays_chain _ _⟩

/-- Witness for C5: the 2010-01-01T00 – 2010-01-01T23 range, zero days
apart, end hour 23 (no extra day). -/
theorem get_required_analysis_correct_witness :
    (ValidDate (dateOf ⟨2010,1,1,0,0⟩) ∧
      dateOf ⟨2010,1,1,23,0⟩ = addDays (dateOf ⟨2010,1,1,0,0⟩) 0) ∧
    (get_required_analysis ⟨2010,1,1,0,0⟩ ⟨2010,1,1,23,0⟩ 1 =
        (List.range ((if 60 * 23 + 0 > 60 * (24 - 1) then 0 + 1 else 0) + 1)).map
          (addDays (dateOf ⟨2010,1,1,0,0⟩)) ∧
      (get_required_analysis ⟨2010,1,1,0,0⟩ ⟨2010,1,1,23,0⟩ 1).head?
        = some (dateOf ⟨2010,1,1,0,0⟩) ∧
      (get_required_analysis ⟨2010,1,1,0,0⟩ ⟨2010,1,1,23,0⟩ 1).getLast?
        = some (if 60 * 23 + 0 > 60 * (24 - 1) then nextDay (dateOf ⟨2010,1,1,23,0⟩)
                else dateOf ⟨2010,1,1,23,0⟩) ∧
      List.Chain' (fun p q => q = nextDay p)
        (get_required_analysis ⟨2010,1,1,0,0⟩ ⟨2010,1,1,23,0⟩ 1)) :=
  ⟨⟨by decide, by decide⟩,
    get_required_analysis_correct.1 ⟨2010,1,1,0,0⟩ ⟨2010,1,1,23,0⟩ 0 (by decide) (by decide)⟩

end Era5

namespace Era5

/-! ## Lemmas about strings and the filesystem model -/

lemma string_append_right_injective (s a b : String) (h : s ++ a = s ++ b) : a = b := by
  have hd := congrArg String.data h
  simp only [String.data_append] at hd
  exact String.ext (List.append_cancel_left hd)

lemma string_append_ne (s : String) {a b : String} (hab : a ≠ b) : s ++ a ≠ s ++ b :=
  fun h => hab (string_append_right_injective s a b h)

lemma mem_fsAdd_self (fs : List String) (p : String) : p ∈ fsAdd fs p := by
  unfold fsAdd
  split_ifs with hp
  · exact hp
  · exact List.mem_cons_self p fs

lemma mem_fsAdd_of_mem (fs : List String) (p : String) {q : String} (h : q ∈ fs) :
    q ∈ fsAdd fs p := by
  unfold fsAdd
  split_ifs with hp
  · exact h
  · exact List.mem_cons_of_mem p h

lemma mem_fsAdd_iff (fs : List String) (p q : String) :
    q ∈ fsAdd fs p ↔ q = p ∨ q ∈ fs := by
  unfold fsAdd
  split_ifs with hp
  · constructor
    · exact fun h => Or.inr h
    · rintro (rfl | h)
      · exact hp
      · exact h
  · simp [List.mem_cons]

lemma nodup_fsAdd (fs : List String) (p : String) (h : fs.Nodup) : (fsAdd fs p).Nodup := by
  unfold fsAdd
  split_ifs with hp
  · exact h
  · exact List.nodup_cons.mpr ⟨hp, h⟩

end Era5

namespace Era5

/-! ## Branch-level specification lemmas for the lifecycle step -/

lemma step_bbox_fail_eq (s : Settings) (o : Oracle) (fs : List String)
    (hbb : resolveBBox s = none) :
    downloadEra5File s o fs =
      { finished := false, outcome := .fatalExit, fs := fsLog s fs,
        lifeState := .noHandle, submitted := false } := by
  simp only [downloadEra5File, hbb]

lemma step_completed_eq (s : Settings) (o : Oracle) (fs : List String)
    (bb : ℚ × ℚ × ℚ × ℚ) (hbb : resolveBBox s = some bb)
    (hp : taskPickle s ∈ fsLog s fs)
    (hr : o.reply = .ok "completed") (hdl : o.downloadOk = true) :
    downloadEra5File s o fs =
      { finished := true, outcome := .ok,
        fs := (fsAdd (fsLog s fs) (taskFile s)).erase (taskPickle s),
        lifeState := .downloaded, submitted := false, request := none,
        downloaded := true,
        patched := s.patch_netcdf && (s.format = "netcdf") } := by
  obtain ⟨n, so, w, e⟩ := bb
  simp only [downloadEra5File, hbb, hr, hdl, if_pos hp]
  rfl

lemma step_expired_keep_eq (s : Settings) (o : Oracle) (fs : List String)
    (bb : ℚ × ℚ × ℚ × ℚ) (hbb : resolveBBox s = some bb)
    (hp : taskPickle s ∈ fsLog s fs)
    (hr : o.reply = .httpError) (hde : s.delete_expired_requests = false) :
    downloadEra5File s o fs =
      { finished := false, outcome := .fatalExit, fs := fsLog s fs,
        lifeState := .expired, submitted := false } := by
  obtain ⟨n, so, w, e⟩ := bb
  simp only [downloadEra5File, hbb, hr, hde, if_pos hp]
  rfl

lemma step_expired_delete_eq (s : Settings) (o : Oracle) (fs : List String)
    (bb : ℚ × ℚ × ℚ × ℚ) (hbb : resolveBBox s = some bb)
    (hp : taskPickle s ∈ fsLog s fs)
    (hr : o.reply = .httpError) (hde : s.delete_expired_requests = true) :
    downloadEra5File s o fs =
      { finished := false, outcome := .ok, fs := (fsLog s fs).erase (taskPickle s),
        lifeState := .deleted, submitted := false } := by
  obtain ⟨n, so, w, e⟩ := bb
  simp only [downloadEra5File, hbb, hr, hde, if_pos hp]
  rfl

lemma step_rejected_delete_ok_eq (s : Settings) (o : Oracle) (fs : List String)
    (bb : ℚ × ℚ × ℚ × ℚ) (st : String) (hbb : resolveBBox s = some bb)
    (hp : taskPickle s ∈ fsLog s fs)
    (hr : o.reply = .ok st)
    (h1 : st ≠ "completed") (h2 : st ≠ "queued") (h3 : st ≠ "accepted")
    (h4 : st ≠ "running") (h5 : st ≠ "deleted")
    (hdr : s.delete_rejected_requests = true)
    (herr : taskErr s ∈ (fsLog s fs).erase (taskPickle s))
    (hout : taskOut s ∈ ((fsLog s fs).erase (taskPickle s)).erase (taskErr s)) :
    downloadEra5File s o fs =
      { finished := false, outcome := .ok,
        fs := (((fsLog s fs).erase (taskPickle s)).erase (taskErr s)).erase (taskOut s),
        lifeState := .deleted, submitted := false } := by
  obtain ⟨n, so, w, e⟩ := bb
  simp only [downloadEra5File, hbb, hr, hdr, if_pos hp, if_neg h1,
    if_neg (show ¬(st = "queued" ∨ st = "accepted" ∨ st = "running") by
      simp [h2, h3, h4]),
    if_neg h5, if_pos herr, if_pos hout]
  rfl

lemma step_rejected_delete_errmissing_eq (s : Settings) (o : Oracle) (fs : List String)
    (bb : ℚ × ℚ × ℚ × ℚ) (st : String) (hbb : resolveBBox s = some bb)
    (hp : taskPickle s ∈ fsLog s fs)
    (hr : o.reply = .ok st)
    (h1 : st ≠ "completed") (h2 : st ≠ "queued") (h3 : st ≠ "accepted")
    (h4 : st ≠ "running") (h5 : st ≠ "deleted")
    (hdr : s.delete_rejected_requests = true)
    (herr : taskErr s ∉ (fsLog s fs).erase (taskPickle s)) :
    downloadEra5File s o fs =
      { finished := false, outcome := .raised,
        fs := (fsLog s fs).erase (taskPickle s),
        lifeState := .rejected, submitted := false } := by
  obtain ⟨n, so, w, e⟩ := bb
  simp only [downloadEra5File, hbb, hr, hdr, if_pos hp, if_neg h1,
    if_neg (show ¬(st = "queued" ∨ st = "accepted" ∨ st = "running") by
      simp [h2, h3, h4]),
    if_neg h5, if_neg herr]
  rfl

lemma step_rejected_keep_eq (s : Settings) (o : Oracle) (fs : List String)
    (bb : ℚ × ℚ × ℚ × ℚ) (st : String) (hbb : resolveBBox s = some bb)
    (hp : taskPickle s ∈ fsLog s fs)
    (hr : o.reply = .ok st)
    (h1 : st ≠ "completed") (h2 : st ≠ "queued") (h3 : st ≠ "accepted")
    (h4 : st ≠ "running") (h5 : st ≠ "deleted")
    (hdr : s.delete_rejected_requests = false) :
    downloadEra5File s o fs =
      { finished := false, outcome := .ok, fs := fsLog s fs,
        lifeState := .rejected, submitted := false } := by
  obtain ⟨n, so, w, e⟩ := bb
  simp only [downloadEra5File, hbb, hr, hdr, if_pos hp, if_neg h1,
    if_neg (show ¬(st = "queued" ∨ st = "accepted" ∨ st = "running") by
      simp [h2, h3, h4]),
    if_neg h5]
  rfl

lemma step_submit_eq (s : Settings) (o : Oracle) (fs : List String)
    (lat_n lat_s lon_w lon_e : ℚ) (req : Request)
    (hbb : resolveBBox s = some (lat_n, lat_s, lon_w, lon_e))
    (hp : taskPickle s ∉ fsLog s fs)
    (hreq : buildRequest s lat_n lat_s lon_w lon_e = some req) :
    downloadEra5File s o fs =
      { finished := false, outcome := .ok,
        fs := fsAdd (fsLog s fs) (taskPickle s),
        lifeState := .submitted, submitted := true, request := some req } := by
  simp only [downloadEra5File, hbb, if_neg hp, hreq]

end Era5

namespace Era5

lemma taskFile_eq (s : Settings) : taskFile s = taskStem s ++ s.format_extension := rfl

lemma taskOut_ne_taskPickle (s : Settings) : taskOut s ≠ taskPickle s :=
  string_append_ne _ (by decide)

lemma taskErr_ne_taskPickle (s : Settings) : taskErr s ≠ taskPickle s :=
  string_append_ne _ (by decide)

lemma taskErr_ne_taskOut (s : Settings) : taskErr s ≠ taskOut s :=
  string_append_ne _ (by decide)

lemma mem_fsLog_of_mem (s : Settings) (fs : List String) {q : String} (h : q ∈ fs) :
    q ∈ fsLog s fs := by
  unfold fsLog
  split_ifs
  · exact mem_fsAdd_of_mem _ _ (mem_fsAdd_of_mem _ _ h)
  · exact h

lemma nodup_fsLog (s : Settings) (fs : List String) (h : fs.Nodup) :
    (fsLog s fs).Nodup := by
  unfold fsLog
  split_ifs
  · exact nodup_fsAdd _ _ (nodup_fsAdd _ _ h)
  · exact h

lemma not_mem_fsLog_pickle (s : Settings) (fs : List String)
    (h : taskPickle s ∉ fs) : taskPickle s ∉ fsLog s fs := by
  unfold fsLog
  split_ifs with hw
  · intro hmem
    rcases (mem_fsAdd_iff _ _ _).mp hmem with heq | hmem2
    · exact (taskErr_ne_taskPickle s) heq.symm
    · rcases (mem_fsAdd_iff _ _ _).mp hmem2 with heq | hmem3
      · exact (taskOut_ne_taskPickle s) heq.symm
      · exact h hmem3
  · exact h

/-! ## Claim theorems: the lifecycle step -/

/-- C3: when refresh of an existing handle reports `completed` and the
download succeeds, the step downloads the payload to the resolved file
path, deletes the handle (no orphaned handle on success), invokes the
NetCDF patch exactly when patching is enabled and the configured format is
netcdf, and returns finished = true (state Downloaded). -/
theorem completed_download_correct :
    ∀ (s : Settings) (o : Oracle) (fs : List String) (bb : ℚ × ℚ × ℚ × ℚ),
      resolveBBox s = some bb →
      fs.Nodup →
      taskPickle s ∈ fs →
      o.reply = .ok "completed" →
      o.downloadOk = true →
      s.format_extension ≠ ".pickle" →
      (downloadEra5File s o fs).finished = true ∧
      (downloadEra5File s o fs).lifeState = .downloaded ∧
      (downloadEra5File s o fs).downloaded = true ∧
      taskFile s ∈ (downloadEra5File s o fs).fs ∧
      taskPickle s ∉ (downloadEra5File s o fs).fs ∧
      (downloadEra5File s o fs).patched = (s.patch_netcdf && (s.format = "netcdf")) := by
  intro s o fs bb hbb hnd hp hr hdl hext
  have hp' := mem_fsLog_of_mem s fs hp
  rw [step_completed_eq s o fs bb hbb hp' hr hdl]
  refine ⟨rfl, rfl, rfl, ?_, ?_, rfl⟩
  · have hne : taskFile s ≠ taskPickle s := by
      rw [taskFile_eq]
      exact string_append_ne _ hext
    exact (List.mem_erase_of_ne hne).mpr (mem_fsAdd_self _ _)
  · have hnd2 : (fsAdd (fsLog s fs) (taskFile s)).Nodup :=
      nodup_fsAdd _ _ (nodup_fsLog s fs hnd)
    intro hcontra
    exact ((List.Nodup.mem_erase_iff hnd2).mp hcontra).1 rfl

/-- Witness for C3 at a concrete completed task. -/
theorem completed_download_correct_witness :
    (resolveBBox baseSettings = some (60, -60, -180, 180) ∧
      [taskPickle baseSettings].Nodup ∧
      taskPickle baseSettings ∈ [taskPickle baseSettings] ∧
      (⟨.ok "completed", true⟩ : Oracle).reply = .ok "completed" ∧
      (⟨.ok "completed", true⟩ : Oracle).downloadOk = true ∧
      baseSettings.format_extension ≠ ".pickle") ∧
    ((downloadEra5File baseSettings ⟨.ok "completed", true⟩ [taskPickle baseSettings]).finished = true ∧
      (downloadEra5File baseSettings ⟨.ok "completed", true⟩ [taskPickle baseSettings]).lifeState = .downloaded ∧
      (downloadEra5File baseSettings ⟨.ok "completed", true⟩ [taskPickle baseSettings]).downloaded = true ∧
      taskFile baseSettings ∈ (downloadEra5File baseSettings ⟨.ok "completed", true⟩ [taskPickle baseSettings]).fs ∧
      taskPickle baseSettings ∉ (downloadEra5File baseSettings ⟨.ok "completed", true⟩ [taskPickle baseSettings]).fs ∧
      (downloadEra5File baseSettings ⟨.ok "completed", true⟩ [taskPickle baseSettings]).patched
        = (baseSettings.patch_netcdf && (baseSettings.format = "netcdf"))) :=
  ⟨⟨by decide, by decide, by decide, rfl, rfl, by decide⟩,
    completed_download_correct baseSettings ⟨.ok "completed", true⟩ [taskPickle baseSettings]
      (60, -60, -180, 180) (by decide) (by decide) (by decide) rfl rfl (by decide)⟩

end Era5

namespace Era5

lemma buildRequest_fields (s : Settings) (n so w e : ℚ)
    (hft : s.ftype = "pressure_an" ∨ s.ftype = "surface_an" ∨ s.ftype = "cams") :
    ∃ req, buildRequest s n so w e = some req ∧
      req.time = analysis_times ∧ req.area = [n, w, so, e] ∧ req.grid = [1, 1] := by
  rcases hft with hf | hf | hf <;> simp [buildRequest, hf]

/-- C4: a task with no persisted handle and a valid configuration submits a
new request — with the time-of-day list fixed to all 24 hourly marks, the
resolved bounding box as `[north, west, south, east]` and the fixed
1-degree grid — persists the handle to the pickle path, and returns
finished = false, reaching exactly the Submitted state, never Downloaded. -/
theorem no_handle_submits :
    ∀ (s : Settings) (o : Oracle) (fs : List String) (lat_n lat_s lon_w lon_e : ℚ),
      resolveBBox s = some (lat_n, lat_s, lon_w, lon_e) →
      taskPickle s ∉ fs →
      (s.ftype = "pressure_an" ∨ s.ftype = "surface_an" ∨ s.ftype = "cams") →
      (downloadEra5File s o fs).outcome = .ok ∧
      (downloadEra5File s o fs).finished = false ∧
      (downloadEra5File s o fs).submitted = true ∧
      (downloadEra5File s o fs).lifeState = .submitted ∧
      (downloadEra5File s o fs).lifeState ≠ .downloaded ∧
      taskPickle s ∈ (downloadEra5File s o fs).fs ∧
      ∃ req, (downloadEra5File s o fs).request = some req ∧
        req.time = analysis_times ∧ req.time.length = 24 ∧
        req.area = [lat_n, lon_w, lat_s, lon_e] ∧ req.grid = [1, 1] := by
  intro s o fs n so w e hbb hp hft
  have hp' : taskPickle s ∉ fsLog s fs := not_mem_fsLog_pickle s fs hp
  obtain ⟨req, hput, hptime, hparea, hpgrid⟩ := buildRequest_fields s n so w e hft
  rw [step_submit_eq s o fs n so w e req hbb hp' hput]
  refine ⟨rfl, rfl, rfl, rfl, by simp, mem_fsAdd_self _ _,
    req, rfl, hptime, ?_, hparea, hpgrid⟩
  rw [hptime]
  rfl

/-- Witness for C4 at a concrete fresh task. -/
theorem no_handle_submits_witness :
    (resolveBBox baseSettings = some (60, -60, -180, 180) ∧
      taskPickle baseSettings ∉ ([] : List String) ∧
      (baseSettings.ftype = "pressure_an" ∨ baseSettings.ftype = "surface_an" ∨
        baseSettings.ftype = "cams")) ∧
    ((downloadEra5File baseSettings ⟨.ok "queued", true⟩ []).outcome = .ok ∧
      (downloadEra5File baseSettings ⟨.ok "queued", true⟩ []).finished = false ∧
      (downloadEra5File baseSettings ⟨.ok "queued", true⟩ []).submitted = true ∧
      (downloadEra5File baseSettings ⟨.ok "queued", true⟩ []).lifeState = .submitted ∧
      (downloadEra5File baseSettings ⟨.ok "queued", true⟩ []).lifeState ≠ .downloaded ∧
      taskPickle baseSettings ∈ (downloadEra5File baseSettings ⟨.ok "queued", true⟩ []).fs ∧
      ∃ req, (downloadEra5File baseSettings ⟨.ok "queued", true⟩ []).request = some req ∧
        req.time = analysis_times ∧ req.time.length = 24 ∧
        req.area = [60, -180, -60, 180] ∧ req.grid = [1, 1]) :=
  ⟨⟨by decide, by decide, by decide⟩,
    no_handle_submits baseSettings ⟨.ok "queued", true⟩ [] 60 (-60) (-180) 180
      (by decide) (by decide) (by decide)⟩

end Era5

namespace Era5

/-- Counterexample to C2 as stated: with a persisted handle, an
expired-ticket refresh (`HTTPError`) and auto-delete of expired handles
disabled, the step does **not** merely stay Expired and move on — it calls
`error(..., exit=settings['delete_expired_requests']^True)`, i.e.
`exit=True`, terminating the whole process: in a two-chunk pass whose
first chunk is expired, the pass aborts (`none`) and only one step result
is ever produced, so the second chunk is never processed. -/
theorem expired_no_delete_counterexample :
    (downloadEra5File { baseSettings with delete_expired_requests := false }
        ⟨.httpError, true⟩
        [taskPickle { baseSettings with delete_expired_requests := false }]).outcome
      = .fatalExit ∧
    runQueue (fun _ => ⟨.httpError, true⟩)
        [{ baseSettings with delete_expired_requests := false },
         { otherSettings with delete_expired_requests := false }]
        [taskPickle { baseSettings with delete_expired_requests := false },
         taskPickle { otherSettings with delete_expired_requests := false }]
        true false = none ∧
    (passResults (fun _ => ⟨.httpError, true⟩)
        [{ baseSettings with delete_expired_requests := false },
         { otherSettings with delete_expired_requests := false }]
        [taskPickle { baseSettings with delete_expired_requests := false },
         taskPickle { otherSettings with delete_expired_requests := false }]).length = 1 := by
  refine ⟨by decide, by decide, by decide⟩

/-- C2 as amended: with a persisted handle, an expired-ticket refresh and
auto-delete of expired handles disabled, the step leaves the handle file in
place and is in the Expired state (manual removal required), but it
terminates the entire process immediately (`sys.exit` via
`error(..., exit=True)`), so the remaining chunks of the pass are not
processed; per-chunk isolation holds only when auto-delete is enabled. -/
theorem expired_no_delete_fatal :
    ∀ (s : Settings) (o : Oracle) (fs : List String) (bb : ℚ × ℚ × ℚ × ℚ),
      resolveBBox s = some bb →
      taskPickle s ∈ fs →
      o.reply = .httpError →
      s.delete_expired_requests = false →
      (downloadEra5File s o fs).outcome = .fatalExit ∧
      (downloadEra5File s o fs).lifeState = .expired ∧
      (downloadEra5File s o fs).finished = false ∧
      taskPickle s ∈ (downloadEra5File s o fs).fs := by
  intro s o fs bb hbb hp hr hde
  have hp' := mem_fsLog_of_mem s fs hp
  rw [step_expired_keep_eq s o fs bb hbb hp' hr hde]
  exact ⟨rfl, rfl, rfl, hp'⟩

/-- Witness for the amended C2 at a concrete expired task. -/
theorem expired_no_delete_fatal_witness :
    (resolveBBox { baseSettings with delete_expired_requests := false }
        = some (60, -60, -180, 180) ∧
      taskPickle { baseSettings with delete_expired_requests := false }
        ∈ [taskPickle { baseSettings with delete_expired_requests := false }] ∧
      (⟨.httpError, true⟩ : Oracle).reply = .httpError ∧
      ({ baseSettings with delete_expired_requests := false } : Settings).delete_expired_requests
        = false) ∧
    ((downloadEra5File { baseSettings with delete_expired_requests := false }
        ⟨.httpError, true⟩
        [taskPickle { baseSettings with delete_expired_requests := false }]).outcome
        = .fatalExit ∧
      (downloadEra5File { baseSettings with delete_expired_requests := false }
        ⟨.httpError, true⟩
        [taskPickle { baseSettings with delete_expired_requests := false }]).lifeState
        = .expired ∧
      (downloadEra5File { baseSettings with delete_expired_requests := false }
        ⟨.httpError, true⟩
        [taskPickle { baseSettings with delete_expired_requests := false }]).finished
        = false ∧
      taskPickle { baseSettings with delete_expired_requests := false }
        ∈ (downloadEra5File { baseSettings with delete_expired_requests := false }
            ⟨.httpError, true⟩
            [taskPickle { baseSettings with delete_expired_requests := false }]).fs) :=
  ⟨⟨by decide, by decide, rfl, rfl⟩,
    expired_no_delete_fatal { baseSettings with delete_expired_requests := false }
      ⟨.httpError, true⟩
      [taskPickle { baseSettings with delete_expired_requests := false }]
      (60, -60, -180, 180) (by decide) (by decide) rfl rfl⟩

end Era5

namespace Era5

lemma not_mem_erase_of_not_mem {a b : String} {l : List String} (h : a ∉ l) :
    a ∉ l.erase b :=
  fun hm => h (List.mem_of_mem_erase hm)

/-- C8: when refresh reports a terminal failure state (not completed,
queued, accepted, running or deleted) and auto-delete of rejected requests
is enabled, the step removes the handle file and both sibling log
artifacts; and in the concrete two-chunk scenario with both chunks
rejected, both handle files and both log-artifact pairs are removed and
the pass reports `all_finished = false`, `any_download_happened = false`. -/
theorem rejected_cleanup_correct :
    (∀ (s : Settings) (o : Oracle) (fs : List String) (bb : ℚ × ℚ × ℚ × ℚ) (st : String),
      resolveBBox s = some bb →
      fs.Nodup →
      taskPickle s ∈ fs →
      o.reply = .ok st →
      st ≠ "completed" → st ≠ "queued" → st ≠ "accepted" → st ≠ "running" → st ≠ "deleted" →
      s.delete_rejected_requests = true →
      s.write_log = true →
      (downloadEra5File s o fs).outcome = .ok ∧
      (downloadEra5File s o fs).finished = false ∧
      (downloadEra5File s o fs).lifeState = .deleted ∧
      taskPickle s ∉ (downloadEra5File s o fs).fs ∧
      taskErr s ∉ (downloadEra5File s o fs).fs ∧
      taskOut s ∉ (downloadEra5File s o fs).fs) ∧
    runQueue (fun _ => ⟨.ok "failed", true⟩) [baseSettings, otherSettings]
      [taskPickle baseSettings, taskErr baseSettings, taskOut baseSettings,
       taskPickle otherSettings, taskErr otherSettings, taskOut otherSettings]
      true false = some (false, false, []) := by
  constructor
  · intro s o fs bb st hbb hnd hp hr h1 h2 h3 h4 h5 hdr hwl
    have hfsl : fsLog s fs = fsAdd (fsAdd fs (taskOut s)) (taskErr s) := by
      simp [fsLog, hwl]
    have hp' := mem_fsLog_of_mem s fs hp
    have herr : taskErr s ∈ fsLog s fs := by
      rw [hfsl]; exact mem_fsAdd_self _ _
    have hout : taskOut s ∈ fsLog s fs := by
      rw [hfsl]; exact mem_fsAdd_of_mem _ _ (mem_fsAdd_self _ _)
    have herr' : taskErr s ∈ (fsLog s fs).erase (taskPickle s) :=
      (List.mem_erase_of_ne (taskErr_ne_taskPickle s)).mpr herr
    have hout' : taskOut s ∈ ((fsLog s fs).erase (taskPickle s)).erase (taskErr s) :=
      (List.mem_erase_of_ne ((taskErr_ne_taskOut s).symm)).mpr
        ((List.mem_erase_of_ne (taskOut_ne_taskPickle s)).mpr hout)
    rw [step_rejected_delete_ok_eq s o fs bb st hbb hp' hr h1 h2 h3 h4 h5 hdr herr' hout']
    have hnd1 : (fsLog s fs).Nodup := nodup_fsLog s fs hnd
    have hnd2 : ((fsLog s fs).erase (taskPickle s)).Nodup := hnd1.erase _
    have hnd3 : (((fsLog s fs).erase (taskPickle s)).erase (taskErr s)).Nodup := hnd2.erase _
    refine ⟨rfl, rfl, rfl, ?_, ?_, ?_⟩
    · refine not_mem_erase_of_not_mem (not_mem_erase_of_not_mem ?_)
      intro hcontra
      exact ((List.Nodup.mem_erase_iff hnd1).mp hcontra).1 rfl
    · refine not_mem_erase_of_not_mem ?_
      intro hcontra
      exact ((List.Nodup.mem_erase_iff hnd2).mp hcontra).1 rfl
    · intro hcontra
      exact ((List.Nodup.mem_erase_iff hnd3).mp hcontra).1 rfl
  · decide

/-- Witness for the general part of C8 at a concrete rejected task. -/
theorem rejected_cleanup_correct_witness :
    (resolveBBox baseSettings = some (60, -60, -180, 180) ∧
      [taskPickle baseSettings].Nodup ∧
      taskPickle baseSettings ∈ [taskPickle baseSettings] ∧
      (⟨.ok "failed", true⟩ : Oracle).reply = .ok "failed" ∧
      ("failed" ≠ "completed" ∧ "failed" ≠ "queued" ∧ "failed" ≠ "accepted" ∧
        "failed" ≠ "running" ∧ "failed" ≠ "deleted") ∧
      baseSettings.delete_rejected_requests = true ∧
      baseSettings.write_log = true) ∧
    ((downloadEra5File baseSettings ⟨.ok "failed", true⟩ [taskPickle baseSettings]).outcome = .ok ∧
      (downloadEra5File baseSettings ⟨.ok "failed", true⟩ [taskPickle baseSettings]).finished = false ∧
      (downloadEra5File baseSettings ⟨.ok "failed", true⟩ [taskPickle baseSettings]).lifeState = .deleted ∧
      taskPickle baseSettings ∉ (downloadEra5File baseSettings ⟨.ok "failed", true⟩ [taskPickle baseSettings]).fs ∧
      taskErr baseSettings ∉ (downloadEra5File baseSettings ⟨.ok "failed", true⟩ [taskPickle baseSettings]).fs ∧
      taskOut baseSettings ∉ (downloadEra5File baseSettings ⟨.ok "failed", true⟩ [taskPickle baseSettings]).fs) :=
  ⟨⟨by decide, by decide, by decide, rfl, by decide, rfl, rfl⟩,
    rejected_cleanup_correct.1 baseSettings ⟨.ok "failed", true⟩ [taskPickle baseSettings]
      (60, -60, -180, 180) "failed" (by decide) (by decide) (by decide) rfl
      (by decide) (by decide) (by decide) (by decide) (by decide) rfl rfl⟩

end Era5

namespace Era5

/-- C10: the rejected-request cleanup (with auto-delete enabled) is
independent of `write_log` and removes the handle first: (a) when
`write_log` is enabled the sibling `.out`/`.err` files exist (created at
step entry), so the file-removal error branch is unreachable and all three
files are removed; (b) with `write_log` disabled and the sibling log files
absent, the cleanup raises `FileNotFoundError` after the handle file has
already been removed; (c) with `write_log` disabled but the log files
present on disk, the cleanup still removes all three files — the deletions
never consult `write_log`. -/
theorem rejected_cleanup_unconditional :
    (∀ (s : Settings) (o : Oracle) (fs : List String) (bb : ℚ × ℚ × ℚ × ℚ) (st : String),
      resolveBBox s = some bb → fs.Nodup → taskPickle s ∈ fs →
      o.reply = .ok st →
      st ≠ "completed" → st ≠ "queued" → st ≠ "accepted" → st ≠ "running" → st ≠ "deleted" →
      s.delete_rejected_requests = true →
      s.write_log = true →
      (downloadEra5File s o fs).outcome = .ok ∧
      (downloadEra5File s o fs).outcome ≠ .raised ∧
      taskPickle s ∉ (downloadEra5File s o fs).fs ∧
      taskErr s ∉ (downloadEra5File s o fs).fs ∧
      taskOut s ∉ (downloadEra5File s o fs).fs) ∧
    (∀ (s : Settings) (o : Oracle) (fs : List String) (bb : ℚ × ℚ × ℚ × ℚ) (st : String),
      resolveBBox s = some bb → fs.Nodup → taskPickle s ∈ fs →
      o.reply = .ok st →
      st ≠ "completed" → st ≠ "queued" → st ≠ "accepted" → st ≠ "running" → st ≠ "deleted" →
      s.delete_rejected_requests = true →
      s.write_log = false →
      taskErr s ∉ fs →
      (downloadEra5File s o fs).outcome = .raised ∧
      (downloadEra5File s o fs).lifeState = .rejected ∧
      (downloadEra5File s o fs).fs = fs.erase (taskPickle s) ∧
      taskPickle s ∉ (downloadEra5File s o fs).fs) ∧
    (∀ (s : Settings) (o : Oracle) (fs : List String) (bb : ℚ × ℚ × ℚ × ℚ) (st : String),
      resolveBBox s = some bb → fs.Nodup → taskPickle s ∈ fs →
      o.reply = .ok st →
      st ≠ "completed" → st ≠ "queued" → st ≠ "accepted" → st ≠ "running" → st ≠ "deleted" →
      s.delete_rejected_requests = true →
      s.write_log = false →
      taskErr s ∈ fs → taskOut s ∈ fs →
      (downloadEra5File s o fs).outcome = .ok ∧
      taskPickle s ∉ (downloadEra5File s o fs).fs ∧
      taskErr s ∉ (downloadEra5File s o fs).fs ∧
      taskOut s ∉ (downloadEra5File s o fs).fs) := by
  refine ⟨?_, ?_, ?_⟩
  · intro s o fs bb st hbb hnd hp hr h1 h2 h3 h4 h5 hdr hwl
    have hfsl : fsLog s fs = fsAdd (fsAdd fs (taskOut s)) (taskErr s) := by
      simp [fsLog, hwl]
    have hp' := mem_fsLog_of_mem s fs hp
    have herr : taskErr s ∈ fsLog s fs := by
      rw [hfsl]; exact mem_fsAdd_self _ _
    have hout : taskOut s ∈ fsLog s fs := by
      rw [hfsl]; exact mem_fsAdd_of_mem _ _ (mem_fsAdd_self _ _)
    have herr' : taskErr s ∈ (fsLog s fs).erase (taskPickle s) :=
      (List.mem_erase_of_ne (taskErr_ne_taskPickle s)).mpr herr
    have hout' : taskOut s ∈ ((fsLog s fs).erase (taskPickle s)).erase (taskErr s) :=
      (List.mem_erase_of_ne ((taskErr_ne_taskOut s).symm)).mpr
        ((List.mem_erase_of_ne (taskOut_ne_taskPickle s)).mpr hout)
    rw [step_rejected_delete_ok_eq s o fs bb st hbb hp' hr h1 h2 h3 h4 h5 hdr herr' hout']
    have hnd1 : (fsLog s fs).Nodup := nodup_fsLog s fs hnd
    have hnd2 : ((fsLog s fs).erase (taskPickle s)).Nodup := hnd1.erase _
    have hnd3 : (((fsLog s fs).erase (taskPickle s)).erase (taskErr s)).Nodup := hnd2.erase _
    refine ⟨rfl, ?_, ?_, ?_, ?_⟩
    · simp
    · refine not_mem_erase_of_not_mem (not_mem_erase_of_not_mem ?_)
      intro hcontra
      exact ((List.Nodup.mem_erase_iff hnd1).mp hcontra).1 rfl
    · refine not_mem_erase_of_not_mem ?_
      intro hcontra
      exact ((List.Nodup.mem_erase_iff hnd2).mp hcontra).1 rfl
    · intro hcontra
      exact ((List.Nodup.mem_erase_iff hnd3).mp hcontra).1 rfl
  · intro s o fs bb st hbb hnd hp hr h1 h2 h3 h4 h5 hdr hwl herr
    have hfsl : fsLog s fs = fs := by simp [fsLog, hwl]
    have hp' : taskPickle s ∈ fsLog s fs := by rw [hfsl]; exact hp
    have herr' : taskErr s ∉ (fsLog s fs).erase (taskPickle s) := by
      rw [hfsl]; exact not_mem_erase_of_not_mem herr
    rw [step_rejected_delete_errmissing_eq s o fs bb st hbb hp' hr h1 h2 h3 h4 h5 hdr herr']
    refine ⟨rfl, rfl, by rw [hfsl], ?_⟩
    rw [hfsl]
    intro hcontra
    exact ((List.Nodup.mem_erase_iff hnd).mp hcontra).1 rfl
  · intro s o fs bb st hbb hnd hp hr h1 h2 h3 h4 h5 hdr hwl herr hout
    have hfsl : fsLog s fs = fs := by simp [fsLog, hwl]
    have hp' : taskPickle s ∈ fsLog s fs := by rw [hfsl]; exact hp
    have herr' : taskErr s ∈ (fsLog s fs).erase (taskPickle s) := by
      rw [hfsl]; exact (List.mem_erase_of_ne (taskErr_ne_taskPickle s)).mpr herr
    have hout' : taskOut s ∈ ((fsLog s fs).erase (taskPickle s)).erase (taskErr s) := by
      rw [hfsl]
      exact (List.mem_erase_of_ne ((taskErr_ne_taskOut s).symm)).mpr
        ((List.mem_erase_of_ne (taskOut_ne_taskPickle s)).mpr hout)
    rw [step_rejected_delete_ok_eq s o fs bb st hbb hp' hr h1 h2 h3 h4 h5 hdr herr' hout']
    have hnd1 : (fsLog s fs).Nodup := nodup_fsLog s fs hnd
    have hnd2 : ((fsLog s fs).erase (taskPickle s)).Nodup := hnd1.erase _
    have hnd3 : (((fsLog s fs).erase (taskPickle s)).erase (taskErr s)).Nodup := hnd2.erase _
    refine ⟨rfl, ?_, ?_, ?_⟩
    · refine not_mem_erase_of_not_mem (not_mem_erase_of_not_mem ?_)
      intro hcontra
      exact ((List.Nodup.mem_erase_iff hnd1).mp hcontra).1 rfl
    · refine not_mem_erase_of_not_mem ?_
      intro hcontra
      exact ((List.Nodup.mem_erase_iff hnd2).mp hcontra).1 rfl
    · intro hcontra
      exact ((List.Nodup.mem_erase_iff hnd3).mp hcontra).1 rfl

/-- Witness for C10: part (b) applied to a concrete task with `write_log`
disabled and no log files on disk, and part (c) applied with stale log
files present. -/
theorem rejected_cleanup_unconditional_witness :
    ((downloadEra5File { baseSettings with write_log := false } ⟨.ok "failed", true⟩
        [taskPickle { baseSettings with write_log := false }]).outcome = .raised ∧
      (downloadEra5File { baseSettings with write_log := false } ⟨.ok "failed", true⟩
        [taskPickle { baseSettings with write_log := false }]).lifeState = .rejected ∧
      (downloadEra5File { baseSettings with write_log := false } ⟨.ok "failed", true⟩
        [taskPickle { baseSettings with write_log := false }]).fs
        = [taskPickle { baseSettings with write_log := false }].erase
            (taskPickle { baseSettings with write_log := false }) ∧
      taskPickle { baseSettings with write_log := false }
        ∉ (downloadEra5File { baseSettings with write_log := false } ⟨.ok "failed", true⟩
            [taskPickle { baseSettings with write_log := false }]).fs) ∧
    ((downloadEra5File { baseSettings with write_log := false } ⟨.ok "failed", true⟩
        [taskPickle { baseSettings with write_log := false },
         taskErr { baseSettings with write_log := false },
         taskOut { baseSettings with write_log := false }]).outcome = .ok ∧
      taskPickle { baseSettings with write_log := false }
        ∉ (downloadEra5File { baseSettings with write_log := false } ⟨.ok "failed", true⟩
            [taskPickle { baseSettings with write_log := false },
             taskErr { baseSettings with write_log := false },
             taskOut { baseSettings with write_log := false }]).fs ∧
      taskErr { baseSettings with write_log := false }
        ∉ (downloadEra5File { baseSettings with write_log := false } ⟨.ok "failed", true⟩
            [taskPickle { baseSettings with write_log := false },
             taskErr { baseSettings with write_log := false },
             taskOut { baseSettings with write_log := false }]).fs ∧
      taskOut { baseSettings with write_log := false }
        ∉ (downloadEra5File { baseSettings with write_log := false } ⟨.ok "failed", true⟩
            [taskPickle { baseSettings with write_log := false },
             taskErr { baseSettings with write_log := false },
             taskOut { baseSettings with write_log := false }]).fs) :=
  ⟨rejected_cleanup_unconditional.2.1 { baseSettings with write_log := false }
      ⟨.ok "failed", true⟩ [taskPickle { baseSettings with write_log := false }]
      (60, -60, -180, 180) "failed" (by decide) (by decide) (by decide) rfl
      (by decide) (by decide) (by decide) (by decide) (by decide) rfl rfl (by decide),
    rejected_cleanup_unconditional.2.2 { baseSettings with write_log := false }
      ⟨.ok "failed", true⟩
      [taskPickle { baseSettings with write_log := false },
       taskErr { baseSettings with write_log := false },
       taskOut { baseSettings with write_log := false }]
      (60, -60, -180, 180) "failed" (by decide) (by decide) (by decide) rfl
      (by decide) (by decide) (by decide) (by decide) (by decide) rfl rfl
      (by decide) (by decide)⟩

end Era5

namespace Era5

lemma stateOfReply_ne_downloaded (st : String) : stateOfReply st ≠ .downloaded := by
  unfold stateOfReply
  split_ifs <;> simp

lemma step_finished_iff_downloaded (s : Settings) (o : Oracle) (fs : List String) :
    (downloadEra5File s o fs).finished = true ↔
      (downloadEra5File s o fs).lifeState = .downloaded := by
  by_cases hmem : taskPickle s ∈ fsLog s fs <;>
    (unfold downloadEra5File
     repeat' split
     all_goals simp [hmem, stateOfReply_ne_downloaded]
     all_goals (split_ifs <;> simp))

lemma passResults_finished (ora : Settings → Oracle) :
    ∀ (queue : List Settings) (fs : List String),
      ∀ r ∈ passResults ora queue fs, (r.finished = true ↔ r.lifeState = .downloaded) := by
  intro queue
  induction queue with
  | nil =>
    intro fs r hr
    simp [passResults] at hr
  | cons q rest ih =>
    intro fs r hr
    simp only [passResults] at hr
    rcases List.mem_cons.mp hr with rfl | hr'
    · exact step_finished_iff_downloaded q (ora q) fs
    · by_cases ho : (downloadEra5File q (ora q) fs).outcome = .ok
      · rw [if_pos ho] at hr'
        exact ih _ r hr'
      · rw [if_neg ho] at hr'
        simp at hr'

lemma runQueue_eq_fold (ora : Settings → Oracle) :
    ∀ (queue : List Settings) (fs : List String) (fin anyDl : Bool)
      (res : Bool × Bool × List String),
      runQueue ora queue fs fin anyDl = some res →
      res.1 = (fin && (passResults ora queue fs).all (·.finished)) ∧
      res.2.1 = (anyDl || (passResults ora queue fs).any (·.finished)) := by
  intro queue
  induction queue with
  | nil =>
    intro fs fin anyDl res h
    simp only [runQueue, Option.some.injEq] at h
    rw [← h]
    simp [passResults]
  | cons q rest ih =>
    intro fs fin anyDl res h
    simp only [runQueue] at h
    cases ho : (downloadEra5File q (ora q) fs).outcome with
    | ok =>
      rw [ho] at h
      obtain ⟨ih1, ih2⟩ := ih _ _ _ _ h
      simp only [passResults, ho, eq_self_iff_true, if_true, List.all_cons, List.any_cons]
      rw [ih1, ih2]
      constructor
      · rw [Bool.and_assoc]
      · rw [Bool.or_assoc]
    | fatalExit =>
      rw [ho] at h
      exact absurd h (by simp)
    | raised =>
      rw [ho] at h
      exact absurd h (by simp)

/-- C7: for every pass, the loop over the download queue (lines 382–404)
returns `all_finished = true` iff every non-skipped task reached Downloaded
during the pass, and `any_download_happened = true` iff at least one task
transitioned to Downloaded. -/
theorem pass_aggregation :
    ∀ (ora : Settings → Oracle) (queue : List Settings) (fs : List String)
      (res : Bool × Bool × List String),
      runQueue ora queue fs true false = some res →
      (res.1 = true ↔ ∀ r ∈ passResults ora queue fs, r.lifeState = .downloaded) ∧
      (res.2.1 = true ↔ ∃ r ∈ passResults ora queue fs, r.lifeState = .downloaded) := by
  intro ora queue fs res h
  obtain ⟨h1, h2⟩ := runQueue_eq_fold ora queue fs true false res h
  constructor
  · rw [h1]
    simp only [Bool.true_and]
    rw [List.all_eq_true]
    constructor
    · intro hall r hr
      exact (passResults_finished ora queue fs r hr).mp (hall r hr)
    · intro hall r hr
      exact (passResults_finished ora queue fs r hr).mpr (hall r hr)
  · rw [h2]
    simp only [Bool.false_or]
    rw [List.any_eq_true]
    constructor
    · rintro ⟨r, hr, hf⟩
      exact ⟨r, hr, (passResults_finished ora queue fs r hr).mp hf⟩
    · rintro ⟨r, hr, hf⟩
      exact ⟨r, hr, (passResults_finished ora queue fs r hr).mpr hf⟩

end Era5

namespace Era5

/-- Witness for C7: a one-task pass whose single task completes and
downloads; the pass returns `(true, true, _)` and indeed every (and some)
task of the pass reached Downloaded. -/
theorem pass_aggregation_witness :
    ((true, true,
        ["/data//test_case/2010/01/01_02/surface_an.grib",
         "/data//test_case/2010/01/01_02/surface_an.err",
         "/data//test_case/2010/01/01_02/surface_an.out"]) :
          Bool × Bool × List String).1 = true ↔
      (∀ r ∈ passResults (fun _ => ⟨.ok "completed", true⟩) [baseSettings]
          [taskPickle baseSettings], r.lifeState = .downloaded) :=
  (pass_aggregation (fun _ => ⟨.ok "completed", true⟩) [baseSettings]
    [taskPickle baseSettings]
    (true, true,
      ["/data//test_case/2010/01/01_02/surface_an.grib",
       "/data//test_case/2010/01/01_02/surface_an.err",
       "/data//test_case/2010/01/01_02/surface_an.out"])
    (by decide)).1

end Era5

namespace Era5

lemma subset_fsAdd (fs : List String) (p : String) : fs ⊆ fsAdd fs p :=
  fun _ h => mem_fsAdd_of_mem _ _ h

lemma prepStep_fs_mono (base : Settings) (blacklist : List String) (ftype : String)
    (acc : List String × List Settings) (dates : List Date) :
    acc.1 ⊆ (prepStep base blacklist ftype acc dates).1 := by
  by_cases hbl : ftype ∈ blacklist
  · simp [prepStep, hbl]
  · by_cases hdir : (era5_file_path dates base.era5_path base.case_name ftype
        base.format_extension).1 ∈ acc.1
    · by_cases hfile : (era5_file_path dates base.era5_path base.case_name ftype
          base.format_extension).2 ∈ acc.1
      · simp [prepStep, hbl, hdir, hfile]
      · simp [prepStep, hbl, hdir, hfile]
    · by_cases hfile : (era5_file_path dates base.era5_path base.case_name ftype
          base.format_extension).2 ∈ fsAdd acc.1 (era5_file_path dates base.era5_path
          base.case_name ftype base.format_extension).1
      · simp only [prepStep, if_neg hbl, if_neg hdir, if_pos hfile]
        exact subset_fsAdd _ _
      · simp only [prepStep, if_neg hbl, if_neg hdir, if_neg hfile]
        exact subset_fsAdd _ _

lemma foldl_prepStep_fs_mono (base : Settings) (blacklist : List String) (ftype : String) :
    ∀ (l : List (List Date)) (acc : List String × List Settings),
      acc.1 ⊆ (l.foldl (prepStep base blacklist ftype) acc).1 := by
  intro l
  induction l with
  | nil => intro acc; exact fun _ h => h
  | cons d rest ih =>
    intro acc
    exact fun q h => ih (prepStep base blacklist ftype acc d) (prepStep_fs_mono _ _ _ acc d h)

lemma prepStep_queue_spec (base : Settings) (blacklist : List String) (ftype : String)
    (acc : List String × List Settings) (dates : List Date) :
    ∀ t ∈ (prepStep base blacklist ftype acc dates).2,
      t ∈ acc.2 ∨
        (era5_file_path t.chunk_dates base.era5_path base.case_name t.ftype
          base.format_extension).2 ∉ acc.1 := by
  intro t ht
  by_cases hbl : ftype ∈ blacklist
  · simp only [prepStep, if_pos hbl] at ht
    exact Or.inl ht
  · by_cases hdir : (era5_file_path dates base.era5_path base.case_name ftype
        base.format_extension).1 ∈ acc.1
    · by_cases hfile : (era5_file_path dates base.era5_path base.case_name ftype
          base.format_extension).2 ∈ acc.1
      · simp only [prepStep, if_neg hbl, if_pos hdir, if_pos hfile] at ht
        exact Or.inl ht
      · simp only [prepStep, if_neg hbl, if_pos hdir, if_neg hfile] at ht
        rcases List.mem_append.mp ht with h1 | h1
        · exact Or.inl h1
        · have hteq : t = { base with chunk_dates := dates, ftype := ftype } := by
            simpa using h1
          right
          rw [hteq]
          exact hfile
    · by_cases hfile : (era5_file_path dates base.era5_path base.case_name ftype
          base.format_extension).2 ∈ fsAdd acc.1 (era5_file_path dates base.era5_path
          base.case_name ftype base.format_extension).1
      · simp only [prepStep, if_neg hbl, if_neg hdir, if_pos hfile] at ht
        exact Or.inl ht
      · simp only [prepStep, if_neg hbl, if_neg hdir, if_neg hfile] at ht
        rcases List.mem_append.mp ht with h1 | h1
        · exact Or.inl h1
        · have hteq : t = { base with chunk_dates := dates, ftype := ftype } := by
            simpa using h1
          right
          rw [hteq]
          intro hmem
          exact hfile (subset_fsAdd _ _ hmem)

lemma foldl_prepStep_queue_spec (base : Settings) (blacklist : List String) (ftype : String) :
    ∀ (l : List (List Date)) (acc : List String × List Settings),
      ∀ t ∈ (l.foldl (prepStep base blacklist ftype) acc).2,
        t ∈ acc.2 ∨
          (era5_file_path t.chunk_dates base.era5_path base.case_name t.ftype
            base.format_extension).2 ∉ acc.1 := by
  intro l
  induction l with
  | nil => intro acc t ht; exact Or.inl ht
  | cons d rest ih =>
    intro acc t ht
    rcases ih (prepStep base blacklist ftype acc d) t ht with h1 | h1
    · rcases prepStep_queue_spec base blacklist ftype acc d t h1 with h2 | h2
      · exact Or.inl h2
      · exact Or.inr h2
    · right
      intro hmem
      exact h1 (prepStep_fs_mono base blacklist ftype acc d hmem)

lemma prep_dl_queue_spec (base : Settings) (an_dates : List Date) (blacklist : List String)
    (chunk_size : Nat) (ftype : String) (acc : List String × List Settings) :
    ∀ t ∈ (prep_dl base an_dates blacklist chunk_size ftype acc).2,
      t ∈ acc.2 ∨
        (era5_file_path t.chunk_dates base.era5_path base.case_name t.ftype
          base.format_extension).2 ∉ acc.1 :=
  foldl_prepStep_queue_spec base blacklist ftype (chunk_dates an_dates chunk_size) acc

lemma prep_dl_fs_mono (base : Settings) (an_dates : List Date) (blacklist : List String)
    (chunk_size : Nat) (ftype : String) (acc : List String × List Settings) :
    acc.1 ⊆ (prep_dl base an_dates blacklist chunk_size ftype acc).1 :=
  foldl_prepStep_fs_mono base blacklist ftype (chunk_dates an_dates chunk_size) acc

/-- C6: every task that the orchestrator's queue construction enqueues has
a resolved output file that did **not** exist at the start of the pass;
chunks whose output file already exists are skipped and never handed to
the lifecycle step (which is invoked only on queue entries). -/
theorem skip_existing_correct :
    ∀ (s : Settings) (start_date end_date : DateTime) (sizes : ChunkSizes)
      (blacklist : List String) (fs : List String),
      ∀ t ∈ (buildQueue s start_date end_date sizes blacklist fs).2,
        (era5_file_path t.chunk_dates s.era5_path s.case_name t.ftype
          s.format_extension).2 ∉ fs := by
  intro s start_date end_date sizes blacklist fs t ht
  unfold buildQueue at ht
  set an_dates := get_required_analysis (lower_to_hour start_date) (lower_to_hour end_date) 1
    with han
  have hsub1 : fs ⊆ (prep_dl s an_dates blacklist sizes.sl "surface_an" (fs, [])).1 :=
    prep_dl_fs_mono s an_dates blacklist sizes.sl "surface_an" (fs, [])
  have hsub2 : fs ⊆ (prep_dl s an_dates blacklist sizes.pl "pressure_an"
      (prep_dl s an_dates blacklist sizes.sl "surface_an" (fs, []))).1 :=
    fun q h => prep_dl_fs_mono s an_dates blacklist sizes.pl "pressure_an" _ (hsub1 h)
  rcases prep_dl_queue_spec s an_dates blacklist sizes.cams "cams" _ t ht with h1 | h1
  · rcases prep_dl_queue_spec s an_dates blacklist sizes.pl "pressure_an" _ t h1 with h2 | h2
    · rcases prep_dl_queue_spec s an_dates blacklist sizes.sl "surface_an" _ t h2 with h3 | h3
      · simp at h3
      · intro hmem
        exact h3 hmem
    · intro hmem
      exact h2 (hsub1 hmem)
  · intro hmem
    exact h1 (hsub2 hmem)

/-- Witness for C6: the single surface-analysis chunk of a one-day pass is
enqueued, and its resolved output file is indeed absent from the initial
filesystem. -/
theorem skip_existing_correct_witness :
    (era5_file_path
        ({ baseSettings with chunk_dates := [⟨2010,1,1⟩], ftype := "surface_an" } : Settings).chunk_dates
        baseSettings.era5_path
        baseSettings.case_name
        ({ baseSettings with chunk_dates := [⟨2010,1,1⟩], ftype := "surface_an" } : Settings).ftype
        baseSettings.format_extension).2 ∉ ["/data/"] :=
  skip_existing_correct baseSettings ⟨2010,1,1,0,0⟩ ⟨2010,1,1,23,0⟩ ⟨8,8,8⟩
    ["pressure_an", "cams"] ["/data/"]
    { baseSettings with chunk_dates := [⟨2010,1,1⟩], ftype := "surface_an" }
    (by decide)

end Era5
